import Mathlib

/-!
Verification of the conversational session/context manager of the
Google Sheets AI Assistant backend (`modal_server.py`): the
`CodingContextManager` class (`load_session`, `save_session`,
`add_message`, `_create_coding_system_prompt`,
`summarize_coding_context`), the `coding_llm_inference` function and the
`coding_query_endpoint` web endpoint.

The Python code is shallowly embedded: the session volume becomes an
explicit `Store` value threaded through the operations, Python
exceptions become an `Except String` result channel, the subprocess call
to the model binary becomes an abstract `EngineOutcome` supplied by an
`InferenceEnv`, and the fresh uuid of the endpoint becomes an explicit
argument.  Python dictionaries carrying spreadsheet metadata are
embedded as association lists of string pairs.
-/

/-- Spreadsheet metadata: a Python dict, embedded as an ordered
association list with string keys and string values. -/
abbrev Metadata := List (String × String)

/-- Python truthiness of the `metadata` parameter (`Dict = None`
default): `None` and the empty dict are falsy. -/
def metaTruthy : Option Metadata → Bool
  | none => false
  | some m => !m.isEmpty

/-- `metadata or {}` as used by `coding_query_endpoint`. -/
def metaOrEmpty : Option Metadata → Metadata
  | none => []
  | some m => m

/-- `json.dumps(metadata, indent=2)` for a string-valued dict. -/
def jsonDumps (m : Metadata) : String :=
  match m with
  | [] => "\x7b\x7d"
  | _ =>
    "\x7b\n" ++
      String.intercalate ",\n"
        (m.map (fun kv => "  \x22" ++ kv.1 ++ "\x22: \x22" ++ kv.2 ++ "\x22")) ++
      "\n\x7d"

/-- One conversation turn: `{"role": ..., "content": ...}`. -/
structure Message where
  role : String
  content : String
deriving DecidableEq

/-- The stored value of one session file: either text that parses as a
message list, or malformed text (`json.loads` raises). -/
inductive Blob
  | parsed (msgs : List Message)
  | malformed
deriving DecidableEq

/-- The session volume.  `files` maps a session id to the blob stored in
`{session_id}.json`; `dirExists` records whether the session directory
exists; `writeFailure = some e` models an unrecoverable I/O fault that
makes `mkdir`/`write_text` raise exception `e` (a merely-missing
directory is not a fault: `mkdir(parents=True, exist_ok=True)`
provisions it). -/
structure Store where
  files : List (String × Blob)
  dirExists : Bool
  writeFailure : Option String
deriving DecidableEq

/-- Overwrite of `{session_id}.json` by `write_text`. -/
def storePut (files : List (String × Blob)) (sid : String) (b : Blob) :
    List (String × Blob) :=
  (sid, b) :: files.filter (fun kv => kv.1 != sid)

/-- `CodingContextManager.load_session`: missing file yields `[]`; a
file whose text fails to parse yields `[]` (the bare `except` clause);
otherwise the parsed message list. -/
def load_session (st : Store) (session_id : String) : List Message :=
  match List.lookup session_id st.files with
  | none => []
  | some Blob.malformed => []
  | some (Blob.parsed msgs) => msgs

/-- `CodingContextManager.save_session`: `try` mkdir + write, `except`
print the error and fall through (return `None`).  The `Except` channel
is the embedding of Python exception propagation out of the function;
the body catches every exception, so the result is always `ok`.  The
second component collects the printed log lines. -/
def save_session (st : Store) (session_id : String) (msgs : List Message) :
    Except String (Store × List String) :=
  match st.writeFailure with
  | some e =>
    Except.ok (st, ["Error saving session " ++ session_id ++ ": " ++ e])
  | none =>
    Except.ok
      ({ files := storePut st.files session_id (Blob.parsed msgs),
         dirExists := true,
         writeFailure := none }, [])

/-- `content[:n]` on a Python string. -/
def strTake (n : Nat) (s : String) : String := String.mk (s.data.take n)

/-- `l[-n:]` on a Python list. -/
def takeLast (n : Nat) (l : List α) : List α := l.drop (l.length - n)

/-- `l[start:-stop]` on a Python list. -/
def pyMidSlice (l : List α) (start stop : Nat) : List α :=
  (l.take (l.length - stop)).drop start

/-- `pat in s` on Python strings (for a non-empty pattern). -/
def strContains (s pat : String) : Bool := (s.splitOn pat).length != 1

/-- Modelled from the spec: the condition on the truncated source line
180 (`if "```  `, cut mid-literal by the markdown packaging of the
repository).  Per spec section 4.2 step 4 the assistant turn is
classified by "presence of a fenced-code marker in the content", i.e.
Python `"```" in content`. -/
def hasCodeFence (content : String) : Bool := strContains content "```"

/-- `CodingContextManager._create_coding_system_prompt`. -/
def create_coding_system_prompt (metadata : Option Metadata) : String :=
  "You are an expert coding assistant specialized in Excel/Google Sheets automation and programming tasks.\n\nCurrent spreadsheet context:\n" ++
    (if metaTruthy metadata then jsonDumps (metaOrEmpty metadata)
     else "No spreadsheet data available") ++
    "\n\nYour expertise includes:\n- Excel formula generation (VLOOKUP, INDEX/MATCH, SUMIF, PIVOT, etc.)\n- VBA/Visual Basic programming\n- Google Apps Script\n- Data analysis and manipulation\n- Financial and investment banking calculations\n- JavaScript for web automation\n\nAlways provide:\n1. Clear, working code solutions\n2. Step-by-step explanations\n3. Specific cell references and ranges\n4. Copy-paste ready formulas\n5. Error handling considerations\n\nFocus on practical, production-ready solutions that integrate seamlessly with spreadsheet environments."

/-- One iteration of the summary-building loop body of
`summarize_coding_context`. -/
def summaryLine (acc : String) (msg : Message) : String :=
  if msg.role == "user" then
    acc ++ "• User asked: " ++ strTake 150 msg.content ++ "...\n"
  else if msg.role == "assistant" then
    if hasCodeFence msg.content then
      acc ++ "-  Assistant provided code solution\n"
    else
      acc ++ "-  Assistant explained: " ++ strTake 100 msg.content ++ "...\n"
  else acc

/-- The summary text accumulated by the `for msg in middle_msgs[-12:]`
loop, starting from the header line. -/
def buildSummary (selected : List Message) : String :=
  selected.foldl summaryLine "Previous coding conversation summary:\n"

/-- `system_msgs = [m for m in messages if m["role"] == "system"]`. -/
def systemMsgsOf (messages : List Message) : List Message :=
  messages.filter (fun m => m.role == "system")

/-- `middle_msgs = messages[len(system_msgs):-8]`. -/
def middleMsgs (messages : List Message) : List Message :=
  pyMidSlice messages (systemMsgsOf messages).length 8

/-- `CodingContextManager.summarize_coding_context`. -/
def summarize_coding_context (messages : List Message)
    (metadata : Option Metadata) : List Message :=
  if messages.length ≤ 15 then messages
  else
    Message.mk "system"
        (create_coding_system_prompt metadata ++ "\n\n" ++
          buildSummary (takeLast 12 (middleMsgs messages)))
      :: takeLast 8 messages

/-- The first two steps of `add_message`: load the session and inject
the system prompt when the loaded list is empty. -/
def initMessages (st : Store) (session_id : String)
    (metadata : Option Metadata) : List Message :=
  let msgs := load_session st session_id
  if msgs.isEmpty then
    msgs ++ [Message.mk "system" (create_coding_system_prompt metadata)]
  else msgs

/-- The first three steps of `add_message`: load, inject the system
prompt when the loaded list is empty, append the new turn. -/
def messagesAfterAppend (st : Store) (session_id role content : String)
    (metadata : Option Metadata) : List Message :=
  initMessages st session_id metadata ++ [Message.mk role content]

/-- The message list `add_message` persists and returns: the appended
list, compacted when its length exceeds 25. -/
def postMessages (st : Store) (session_id role content : String)
    (metadata : Option Metadata) : List Message :=
  let messages := messagesAfterAppend st session_id role content metadata
  if messages.length > 25 then summarize_coding_context messages metadata
  else messages

/-- `CodingContextManager.add_message`: build the new list, save it,
return it. -/
def add_message (st : Store) (session_id role content : String)
    (metadata : Option Metadata) :
    Except String (Store × List Message) :=
  let messages := postMessages st session_id role content metadata
  match save_session st session_id messages with
  | Except.error e => Except.error e
  | Except.ok (st2, _logs) => Except.ok (st2, messages)

/-- Python `str.title()` restricted to what the transcript builder
needs: uppercase a letter that starts an alphabetic run, lowercase the
rest of the run. -/
def pyTitleGo : Bool → List Char → List Char
  | _, [] => []
  | prevAlpha, c :: cs =>
    (if c.isAlpha then (if prevAlpha then c.toLower else c.toUpper) else c)
      :: pyTitleGo c.isAlpha cs

/-- Python `str.title()`. -/
def pyTitle (s : String) : String := String.mk (pyTitleGo false s.data)

/-- The `context_text` built by `coding_llm_inference` for llama.cpp. -/
def buildTranscript (messages : List Message) : String :=
  String.intercalate "\n"
      (messages.map (fun m => pyTitle m.role ++ ": " ++ m.content)) ++
    "\nAssistant:"

/-- Outcome of the `subprocess.run` call on the llama.cpp binary:
normal completion with captured stdout, a non-zero exit status
(`subprocess.CalledProcessError`, raised because of `check=True`), or
any other exception such as `subprocess.TimeoutExpired` from the
300-second timeout (caught by the generic `except Exception` clause).
The payload of the failure constructors is Python `str(e)`. -/
inductive EngineOutcome
  | success (stdout : String)
  | calledProcessError (e : String)
  | timeoutOrOther (e : String)

/-- The environment of one `coding_llm_inference` request: which
`*.gguf` files each model directory of the cache volume contains, and
what the engine subprocess does with a given prompt text. -/
structure InferenceEnv where
  modelFiles : String → List String
  engine : String → EngineOutcome

/-- A response dictionary of the backend.  Each Python dict key that may
be absent is an `Option` field (`none` = key absent). -/
structure ApiResponse where
  session_id : Option String
  response : Option String
  error : Option String
  model_used : Option String
  metadata : Option (Option Metadata)
deriving DecidableEq

/-- The dict returned when the resolved model directory holds no
`*.gguf` file. -/
def modelNotFoundResponse (session_id model_choice : String) : ApiResponse :=
  { session_id := some session_id,
    response := some ("Model " ++ model_choice ++
      " not found. Please run setup_coding_models first."),
    error := some "Model not available",
    model_used := none,
    metadata := none }

/-- The dict returned from the `except subprocess.CalledProcessError`
branch. -/
def inferenceErrorResponse (session_id e model_choice : String) : ApiResponse :=
  { session_id := some session_id,
    response := some "I encountered an error processing your coding request. Please try again with a simpler query.",
    error := some e,
    model_used := some model_choice,
    metadata := none }

/-- The dict returned from the generic `except Exception` branch. -/
def unexpectedErrorResponse (session_id e : String) : ApiResponse :=
  { session_id := some session_id,
    response := some "An unexpected error occurred. Please try again.",
    error := some e,
    model_used := none,
    metadata := none }

/-- The dict returned on success. -/
def successResponse (session_id response model_choice : String)
    (metadata : Option Metadata) : ApiResponse :=
  { session_id := some session_id,
    response := some response,
    error := none,
    model_used := some model_choice,
    metadata := some metadata }

/-- The dict returned by `coding_query_endpoint` when the prompt is
empty: `{"error": "No prompt provided"}`, no other key. -/
def validationErrorResponse : ApiResponse :=
  { session_id := none,
    response := none,
    error := some "No prompt provided",
    model_used := none,
    metadata := none }

/-- The `model_paths` dict of `coding_llm_inference`. -/
def model_paths : List (String × String) :=
  [("qwen-2.5-coder-14b", "qwen-2.5-coder-14b"),
   ("deepseek-coder-v2", "deepseek-coder-v2-lite"),
   ("phi-3.5-mini", "phi-3.5-mini")]

/-- `model_paths.get(model_choice, "phi-3.5-mini")`. -/
def resolveModelDir (model_choice : String) : String :=
  (List.lookup model_choice model_paths).getD "phi-3.5-mini"

/-- The fixed text in front of the user request inside the coding
prompt, up to and including the blank line before the label. -/
def spreadsheetContextLine (metadata : Option Metadata) : String :=
  "\nSpreadsheet Context: " ++
    (if metaTruthy metadata then jsonDumps (metaOrEmpty metadata)
     else "No spreadsheet loaded") ++
    "\n\nUser Request: "

/-- The fixed text after the user request inside the coding prompt. -/
def requestSuffix : String :=
  "\n\nPlease provide a practical solution with:\n1. Working code/formulas\n2. Clear explanations\n3. Integration steps for Google Sheets/Excel\n4. Specific cell references where applicable\n"

/-- The `coding_prompt` f-string of `coding_llm_inference`. -/
def coding_prompt_wrapper (metadata : Option Metadata) (p : String) : String :=
  spreadsheetContextLine metadata ++ p ++ requestSuffix

/-- Post-processing of the raw engine stdout: strip, keep only the text
after the last `Assistant:` label, drop echoed role-labelled lines,
strip again. -/
def cleanResponse (stdout : String) : String :=
  let response := stdout.trim
  let response :=
    if strContains response "Assistant:" then
      ((response.splitOn "Assistant:").getLastD "").trim
    else response
  let ls := response.splitOn "\n"
  let cleaned := ls.filter (fun line =>
    !(line.startsWith "User:" || line.startsWith "Human:" ||
      line.startsWith "Assistant:"))
  (String.intercalate "\n" cleaned).trim

/-- `coding_llm_inference(session_id, prompt, metadata, model_choice)`:
wrap the prompt, commit the user turn, resolve the model directory with
silent fallback, and either report the missing model, or run the engine
and on success commit the assistant turn.  Exceptions escaping the
function would surface on the `Except` channel. -/
def coding_llm_inference (env : InferenceEnv) (st : Store)
    (session_id p : String) (metadata : Option Metadata)
    (model_choice : String) :
    Except String (Store × ApiResponse) :=
  let coding_prompt := coding_prompt_wrapper metadata p
  match add_message st session_id "user" coding_prompt metadata with
  | Except.error e => Except.error e
  | Except.ok (st1, messages) =>
    let context_text := buildTranscript messages
    let model_dir := resolveModelDir model_choice
    let model_files := env.modelFiles model_dir
    if model_files.isEmpty then
      Except.ok (st1, modelNotFoundResponse session_id model_choice)
    else
      match env.engine context_text with
      | EngineOutcome.success stdout =>
        let response := cleanResponse stdout
        match add_message st1 session_id "assistant" response metadata with
        | Except.error e => Except.error e
        | Except.ok (st2, _m2) =>
          Except.ok (st2,
            successResponse session_id response model_choice metadata)
      | EngineOutcome.calledProcessError e =>
        Except.ok (st1, inferenceErrorResponse session_id e model_choice)
      | EngineOutcome.timeoutOrOther e =>
        Except.ok (st1, unexpectedErrorResponse session_id e)

/-- `if not session_id: session_id = str(uuid.uuid4())`; the fresh uuid
is the explicit argument `u`. -/
def resolveSid (sidOpt : Option String) (u : String) : String :=
  match sidOpt with
  | none => u
  | some s => if s == "" then u else s

/-- `coding_query_endpoint`: resolve the session id, reject an empty
prompt, otherwise delegate to `coding_llm_inference` with
`metadata or {}`. -/
def coding_query_endpoint (env : InferenceEnv) (st : Store)
    (sidOpt : Option String) (u : String) (p : String)
    (md : Option Metadata) (model : String) :
    Except String (Store × ApiResponse) :=
  let session_id := resolveSid sidOpt u
  if p == "" then Except.ok (st, validationErrorResponse)
  else coding_llm_inference env st session_id p (some (metaOrEmpty md)) model

/-- A run of `add_message` calls against one session: the arguments of
one call. -/
structure AppendCall where
  role : String
  content : String
  md : Option Metadata
deriving DecidableEq

/-- Execute a sequence of `add_message` calls on one session, threading
the store.  An escaping exception would abort the run (the source never
raises, see `save_session`). -/
def runAppends (sid : String) : Store → List AppendCall → Store
  | st, [] => st
  | st, c :: rest =>
    match add_message st sid c.role c.content c.md with
    | Except.error _ => st
    | Except.ok (st2, _) => runAppends sid st2 rest

/-! ### Basic lemmas about the store operations -/

theorem save_session_ok_of_healthy (st : Store) (sid : String)
    (msgs : List Message) (hw : st.writeFailure = none) :
    save_session st sid msgs =
      Except.ok ({ files := storePut st.files sid (Blob.parsed msgs),
                   dirExists := true, writeFailure := none }, []) := by
  simp [save_session, hw]

theorem save_session_isOk (st : Store) (sid : String) (msgs : List Message) :
    ∃ st2 logs, save_session st sid msgs = Except.ok (st2, logs) := by
  cases h : st.writeFailure <;> simp [save_session, h]

theorem load_session_put (files : List (String × Blob)) (sid : String)
    (msgs : List Message) (d : Bool) (w : Option String) :
    load_session
      { files := storePut files sid (Blob.parsed msgs),
        dirExists := d, writeFailure := w } sid = msgs := by
  simp [load_session, storePut, List.lookup]

theorem add_message_eq_of_healthy (st : Store) (sid role content : String)
    (md : Option Metadata) (hw : st.writeFailure = none) :
    add_message st sid role content md =
      Except.ok
        ({ files := storePut st.files sid
             (Blob.parsed (postMessages st sid role content md)),
           dirExists := true, writeFailure := none },
         postMessages st sid role content md) := by
  simp [add_message, save_session_ok_of_healthy st sid _ hw]

theorem add_message_isOk (st : Store) (sid role content : String)
    (md : Option Metadata) :
    ∃ st2, add_message st sid role content md =
      Except.ok (st2, postMessages st sid role content md) := by
  obtain ⟨st2, logs, h⟩ := save_session_isOk st sid
    (postMessages st sid role content md)
  exact ⟨st2, by simp [add_message, h]⟩

/-! ### Lemmas about the Python slices -/

theorem takeLast_length_of_le {α} (n : Nat) (l : List α) (h : n ≤ l.length) :
    (takeLast n l).length = n := by
  simp only [takeLast, List.length_drop]
  omega

theorem takeLast_append_singleton {α} (n : Nat) (hn : 1 ≤ n) (l : List α)
    (x : α) : ∃ l2, takeLast n (l ++ [x]) = l2 ++ [x] := by
  refine ⟨List.drop ((l ++ [x]).length - n) l, ?_⟩
  unfold takeLast
  rw [List.drop_append_eq_append_drop]
  congr 1
  have h0 : (l ++ [x]).length - n - l.length = 0 := by
    simp only [List.length_append, List.length_cons, List.length_nil]
    omega
  rw [h0]
  rfl

theorem mem_takeLast_of_mem_suffix {α} {y : α} {ys : List α} (xs : List α)
    (n : Nat) (hy : y ∈ ys) (hlen : ys.length ≤ n) :
    y ∈ takeLast n (xs ++ ys) := by
  unfold takeLast
  rw [List.drop_append_eq_append_drop]
  have h0 : (xs ++ ys).length - n - xs.length = 0 := by
    simp only [List.length_append]
    omega
  rw [h0]
  simp only [List.drop_zero]
  exact List.mem_append_right _ hy

theorem mem_takeLast_last {α} (n : Nat) (hn : 1 ≤ n) (l : List α) (x : α) :
    x ∈ takeLast n (l ++ [x]) :=
  mem_takeLast_of_mem_suffix l n (List.mem_singleton.mpr rfl)
    (by simpa using hn)

/-! ### Shape of the compacted list -/

theorem summarize_eq_of_long (messages : List Message) (md : Option Metadata)
    (h : 15 < messages.length) :
    summarize_coding_context messages md =
      Message.mk "system"
          (create_coding_system_prompt md ++ "\n\n" ++
            buildSummary (takeLast 12 (middleMsgs messages)))
        :: takeLast 8 messages := by
  unfold summarize_coding_context
  rw [if_neg (by omega)]

theorem postMessages_eq_of_long (st : Store) (sid role content : String)
    (md : Option Metadata)
    (h : 25 < (messagesAfterAppend st sid role content md).length) :
    postMessages st sid role content md =
      Message.mk "system"
          (create_coding_system_prompt md ++ "\n\n" ++
            buildSummary (takeLast 12
              (middleMsgs (messagesAfterAppend st sid role content md))))
        :: takeLast 8 (messagesAfterAppend st sid role content md) := by
  unfold postMessages
  rw [if_pos (by omega)]
  exact summarize_eq_of_long _ _ (by omega)

theorem postMessages_eq_of_short (st : Store) (sid role content : String)
    (md : Option Metadata)
    (h : ¬ 25 < (messagesAfterAppend st sid role content md).length) :
    postMessages st sid role content md =
      messagesAfterAppend st sid role content md := by
  unfold postMessages
  rw [if_neg (by omega)]

theorem postMessages_ends (st : Store) (sid role content : String)
    (md : Option Metadata) :
    ∃ l2, postMessages st sid role content md =
      l2 ++ [Message.mk role content] := by
  by_cases h : 25 < (messagesAfterAppend st sid role content md).length
  · rw [postMessages_eq_of_long st sid role content md h]
    obtain ⟨l2, hl2⟩ := takeLast_append_singleton 8 (by omega)
      (initMessages st sid md) (Message.mk role content)
    rw [show messagesAfterAppend st sid role content md =
        initMessages st sid md ++ [Message.mk role content] from rfl, hl2]
    exact ⟨_ :: l2, rfl⟩
  · rw [postMessages_eq_of_short st sid role content md h]
    exact ⟨initMessages st sid md, rfl⟩

theorem mem_postMessages_self (st : Store) (sid role content : String)
    (md : Option Metadata) :
    Message.mk role content ∈ postMessages st sid role content md := by
  obtain ⟨l2, hl2⟩ := postMessages_ends st sid role content md
  rw [hl2]
  exact List.mem_append_right _ (List.mem_singleton.mpr rfl)

/-! ### The system-turn invariant -/

/-- The list starts with a system turn and holds no other system
turn. -/
def SysHeadOnly (msgs : List Message) : Prop :=
  ∃ c rest, msgs = Message.mk "system" c :: rest ∧
    ∀ m ∈ rest, m.role ≠ "system"

theorem postMessages_sysHead (st : Store) (sid role content : String)
    (md : Option Metadata) (hrole : role ≠ "system")
    (hP : load_session st sid = [] ∨ SysHeadOnly (load_session st sid)) :
    SysHeadOnly (postMessages st sid role content md) := by
  rcases hP with hempty | ⟨c0, rest, hmsgs, hclean⟩
  · have hpre : messagesAfterAppend st sid role content md =
        [Message.mk "system" (create_coding_system_prompt md),
         Message.mk role content] := by
      simp [messagesAfterAppend, initMessages, hempty]
    rw [postMessages_eq_of_short st sid role content md (by rw [hpre]; simp)]
    rw [hpre]
    exact ⟨_, [Message.mk role content], rfl, by
      intro m hm
      rw [List.mem_singleton.mp hm]
      exact hrole⟩
  · have hpre : messagesAfterAppend st sid role content md =
        Message.mk "system" c0 :: (rest ++ [Message.mk role content]) := by
      simp [messagesAfterAppend, initMessages, hmsgs]
    have htail : ∀ m ∈ rest ++ [Message.mk role content], m.role ≠ "system" := by
      intro m hm
      rcases List.mem_append.mp hm with h | h
      · exact hclean m h
      · rw [List.mem_singleton.mp h]; exact hrole
    by_cases hlong : 25 < (messagesAfterAppend st sid role content md).length
    · rw [postMessages_eq_of_long st sid role content md hlong]
      refine ⟨_, _, rfl, ?_⟩
      intro m hm
      unfold takeLast at hm
      rw [hpre] at hm
      have hlen : (Message.mk "system" c0 ::
          (rest ++ [Message.mk role content])).length =
          (messagesAfterAppend st sid role content md).length := by rw [hpre]
      have hk : (Message.mk "system" c0 ::
          (rest ++ [Message.mk role content])).length - 8 =
          ((messagesAfterAppend st sid role content md).length - 9) + 1 := by
        omega
      rw [hk, List.drop_succ_cons] at hm
      exact htail m (List.mem_of_mem_drop hm)
    · rw [postMessages_eq_of_short st sid role content md hlong, hpre]
      exact ⟨c0, _, rfl, htail⟩

theorem runAppends_inv (sid : String) (calls : List AppendCall) :
    ∀ st : Store, st.writeFailure = none →
      (load_session st sid = [] ∨ SysHeadOnly (load_session st sid)) →
      (∀ c ∈ calls, c.role ≠ "system") →
      (runAppends sid st calls).writeFailure = none ∧
      (load_session (runAppends sid st calls) sid = [] ∨
        SysHeadOnly (load_session (runAppends sid st calls) sid)) ∧
      (calls ≠ [] →
        SysHeadOnly (load_session (runAppends sid st calls) sid)) := by
  induction calls with
  | nil =>
    intro st hw hP _
    refine ⟨hw, hP, fun h => absurd rfl h⟩
  | cons c cs ih =>
    intro st hw hP hroles
    have hstep := add_message_eq_of_healthy st sid c.role c.content c.md hw
    have hrun : runAppends sid st (c :: cs) =
        runAppends sid
          { files := storePut st.files sid
              (Blob.parsed (postMessages st sid c.role c.content c.md)),
            dirExists := true, writeFailure := none } cs := by
      simp [runAppends, hstep]
    have hload2 : load_session
        { files := storePut st.files sid
            (Blob.parsed (postMessages st sid c.role c.content c.md)),
          dirExists := true, writeFailure := none } sid =
        postMessages st sid c.role c.content c.md :=
      load_session_put _ _ _ _ _
    have hP2 : SysHeadOnly (load_session
        { files := storePut st.files sid
            (Blob.parsed (postMessages st sid c.role c.content c.md)),
          dirExists := true, writeFailure := none } sid) := by
      rw [hload2]
      exact postMessages_sysHead st sid c.role c.content c.md
        (hroles c (List.mem_cons_self c cs)) hP
    obtain ⟨hw', hP', hlast⟩ := ih _ rfl (Or.inr hP2)
      (fun d hd => hroles d (List.mem_cons_of_mem c hd))
    rw [hrun]
    refine ⟨hw', hP', fun _ => ?_⟩
    cases cs with
    | nil => exact hP2
    | cons d ds => exact hlast (by simp)

/-! ### Concrete fixtures used by the witness theorems -/

def emptyStore : Store :=
  { files := [], dirExists := true, writeFailure := none }

def demoOldMeta : Metadata := [("sheet_title", "Old Sheet")]

def demoNewMeta : Metadata := [("sheet_title", "New Sheet")]

def demoTailMsgs : List Message :=
  (List.range 24).map (fun i =>
    Message.mk (if i % 2 == 0 then "user" else "assistant")
      ("turn " ++ toString i))

def demoMsgs : List Message :=
  Message.mk "system" (create_coding_system_prompt (some demoOldMeta)) ::
    demoTailMsgs

def demoStore : Store :=
  { files := [("s1", Blob.parsed demoMsgs)], dirExists := true,
    writeFailure := none }

def malformedStore : Store :=
  { files := [("bad", Blob.malformed)], dirExists := true,
    writeFailure := none }

def badStore : Store :=
  { files := [], dirExists := false, writeFailure := some "disk full" }

def demoCalls : List AppendCall := [AppendCall.mk "user" "hello" none]

def demoFailEnv : InferenceEnv :=
  { modelFiles := fun _ => ["model.gguf"],
    engine := fun _ => EngineOutcome.calledProcessError "exit status 1" }

def demoNoModelEnv : InferenceEnv :=
  { modelFiles := fun _ => [],
    engine := fun _ => EngineOutcome.success "irrelevant" }

def demoOkEnv : InferenceEnv :=
  { modelFiles := fun _ => ["model.gguf"],
    engine := fun _ => EngineOutcome.success "Assistant: use SUM(A:A)" }

/-! ### The claims -/

/-- C1: whenever the turn sequence built by an `add_message` call
exceeds 25 turns, compaction runs and the returned and stored sequence
is one fresh system turn followed verbatim by the last 8 turns of the
pre-compaction sequence, 9 turns in total, whatever the pre-compaction
length was. -/
theorem c1_compaction_bound (st : Store) (sid role content : String)
    (md : Option Metadata) (hw : st.writeFailure = none)
    (h : 25 < (messagesAfterAppend st sid role content md).length) :
    ∃ st2 sys,
      add_message st sid role content md =
        Except.ok (st2, Message.mk "system" sys ::
          takeLast 8 (messagesAfterAppend st sid role content md)) ∧
      load_session st2 sid =
        Message.mk "system" sys ::
          takeLast 8 (messagesAfterAppend st sid role content md) ∧
      (Message.mk "system" sys ::
          takeLast 8 (messagesAfterAppend st sid role content md)).length
        = 9 := by
  have hpost := postMessages_eq_of_long st sid role content md h
  refine ⟨{ files := storePut st.files sid
              (Blob.parsed (postMessages st sid role content md)),
            dirExists := true, writeFailure := none },
          create_coding_system_prompt md ++ "\n\n" ++
            buildSummary (takeLast 12
              (middleMsgs (messagesAfterAppend st sid role content md))),
          ?_, ?_, ?_⟩
  · rw [add_message_eq_of_healthy st sid role content md hw, hpost]
  · rw [← hpost]
    exact load_session_put _ _ _ _ _
  · simp only [List.length_cons]
    rw [takeLast_length_of_le 8 _ (by omega)]

theorem c1_compaction_bound_witness :
    demoStore.writeFailure = none ∧
    25 < (messagesAfterAppend demoStore "s1" "user" "turn 24" none).length ∧
    ∃ st2 sys,
      add_message demoStore "s1" "user" "turn 24" none =
        Except.ok (st2, Message.mk "system" sys ::
          takeLast 8 (messagesAfterAppend demoStore "s1" "user" "turn 24" none)) ∧
      load_session st2 "s1" =
        Message.mk "system" sys ::
          takeLast 8 (messagesAfterAppend demoStore "s1" "user" "turn 24" none) ∧
      (Message.mk "system" sys ::
          takeLast 8 (messagesAfterAppend demoStore "s1" "user" "turn 24" none)).length
        = 9 :=
  ⟨rfl, by decide,
   c1_compaction_bound demoStore "s1" "user" "turn 24" none rfl (by decide)⟩

/-- C2: for any sequence of `add_message` calls with non-system roles
on a fresh session (and a healthy store), after each call the stored
turn sequence holds exactly one system turn and it is the first
element; compaction never yields two simultaneous system turns. -/
theorem c2_system_turn_singularity (st0 : Store) (sid : String)
    (calls : List AppendCall) (h0 : load_session st0 sid = [])
    (hw : st0.writeFailure = none)
    (hroles : ∀ c ∈ calls, c.role ≠ "system") (hne : calls ≠ []) :
    ((load_session (runAppends sid st0 calls) sid).filter
        (fun m => m.role == "system")).length = 1 ∧
    ∃ c rest, load_session (runAppends sid st0 calls) sid =
        Message.mk "system" c :: rest ∧ ∀ m ∈ rest, m.role ≠ "system" := by
  obtain ⟨-, -, hlast⟩ := runAppends_inv sid calls st0 hw (Or.inl h0) hroles
  obtain ⟨c, rest, hsh, hclean⟩ := hlast hne
  refine ⟨?_, c, rest, hsh, hclean⟩
  rw [hsh, List.filter_cons]
  have hhead : ((Message.mk "system" c).role == "system") = true := by
    simp
  rw [if_pos hhead]
  have hrest : rest.filter (fun m => m.role == "system") = [] :=
    List.filter_eq_nil_iff.mpr (fun m hm => by simpa using hclean m hm)
  rw [hrest]
  rfl

theorem c2_system_turn_singularity_witness :
    (load_session emptyStore "s9" = [] ∧
      (∀ c ∈ demoCalls, c.role ≠ "system") ∧ demoCalls ≠ []) ∧
    ((load_session (runAppends "s9" emptyStore demoCalls) "s9").filter
        (fun m => m.role == "system")).length = 1 ∧
    ∃ c rest, load_session (runAppends "s9" emptyStore demoCalls) "s9" =
        Message.mk "system" c :: rest ∧ ∀ m ∈ rest, m.role ≠ "system" :=
  ⟨⟨rfl, by decide, by decide⟩,
   c2_system_turn_singularity emptyStore "s9" demoCalls rfl rfl
     (by decide) (by decide)⟩

/-- C7: `load_session` returns the empty sequence, not an error, both
for a session id with no stored file and for one whose stored file
cannot be parsed. -/
theorem c7_load_absent_or_malformed (st : Store) (sid : String)
    (h : List.lookup sid st.files = none ∨
         List.lookup sid st.files = some Blob.malformed) :
    load_session st sid = [] := by
  unfold load_session
  rcases h with h | h <;> rw [h]

theorem c7_load_absent_or_malformed_witness :
    (List.lookup "bad" malformedStore.files = some Blob.malformed ∧
      load_session malformedStore "bad" = []) ∧
    (List.lookup "missing" malformedStore.files = none ∧
      load_session malformedStore "missing" = []) :=
  ⟨⟨rfl, c7_load_absent_or_malformed malformedStore "bad" (Or.inr rfl)⟩,
   ⟨rfl, c7_load_absent_or_malformed malformedStore "missing" (Or.inl rfl)⟩⟩

/-- C8, counterexample: on a store whose write path raises an
unrecoverable I/O fault, `save_session` still returns normally — no
`PersistenceError` (no exception at all) propagates to the caller,
contradicting the claim that unrecoverable persist failures surface. -/
theorem c8_counterexample :
    badStore.writeFailure = some "disk full" ∧
    ¬ ∃ e, save_session badStore "s1" [] = Except.error e := by
  refine ⟨rfl, ?_⟩
  rintro ⟨e, h⟩
  simp [save_session, badStore] at h

/-- C8, amended: the persist step of `add_message` never throws at all.
A merely-missing storage directory is transparently provisioned
(`mkdir(parents=True, exist_ok=True)`; after a healthy save the
directory exists and the file holds the messages), and every other I/O
failure is caught, logged, and swallowed — the unchanged store and a log
line are the only trace; no `PersistenceError` reaches the caller. -/
theorem c8_amended_persist_never_throws (st : Store) (sid : String)
    (msgs : List Message) :
    ∃ st2 logs, save_session st sid msgs = Except.ok (st2, logs) ∧
      (st.writeFailure = none →
        st2.dirExists = true ∧
        List.lookup sid st2.files = some (Blob.parsed msgs) ∧ logs = []) ∧
      (∀ e, st.writeFailure = some e →
        st2 = st ∧ logs = ["Error saving session " ++ sid ++ ": " ++ e]) := by
  cases h : st.writeFailure with
  | none =>
    refine ⟨_, [], save_session_ok_of_healthy st sid msgs h, ?_, ?_⟩
    · intro _
      refine ⟨rfl, ?_, rfl⟩
      simp [storePut, List.lookup]
    · intro e he
      exact Option.noConfusion he
  | some e0 =>
    refine ⟨st, ["Error saving session " ++ sid ++ ": " ++ e0],
      by simp [save_session, h], ?_, ?_⟩
    · intro hn
      exact Option.noConfusion hn
    · intro e he
      cases he
      exact ⟨rfl, rfl⟩

theorem c8_amended_persist_never_throws_witness :
    ∃ st2 logs, save_session badStore "s1" [] = Except.ok (st2, logs) ∧
      (badStore.writeFailure = none →
        st2.dirExists = true ∧
        List.lookup "s1" st2.files = some (Blob.parsed []) ∧ logs = []) ∧
      (∀ e, badStore.writeFailure = some e →
        st2 = badStore ∧
        logs = ["Error saving session " ++ "s1" ++ ": " ++ e]) :=
  c8_amended_persist_never_throws badStore "s1" []

theorem string_append_right_cancel {a b s : String} (h : a ++ s = b ++ s) :
    a = b := by
  apply String.ext
  have hd := congrArg String.data h
  rw [String.data_append, String.data_append] at hd
  exact List.append_cancel_right hd

set_option linter.unusedVariables false in
/-- C6: when the append that triggers compaction supplies metadata
that differs from the metadata the original system turn was built from,
the regenerated system turn is the system prompt built from the current
metadata concatenated with the summary of the selected middle turns;
whenever the two prompts differ at all, the regenerated turn therefore
differs from the one the old metadata would have produced. -/
theorem c6_metadata_refresh (st : Store) (sid role content : String)
    (md md0 : Option Metadata) (rest : List Message)
    (hw : st.writeFailure = none)
    (hload : load_session st sid =
      Message.mk "system" (create_coding_system_prompt md0) :: rest)
    (hdiff : md ≠ md0)
    (hlen : 25 < (messagesAfterAppend st sid role content md).length) :
    add_message st sid role content md =
      Except.ok
        ({ files := storePut st.files sid
             (Blob.parsed (postMessages st sid role content md)),
           dirExists := true, writeFailure := none },
         Message.mk "system"
             (create_coding_system_prompt md ++ "\n\n" ++
               buildSummary (takeLast 12
                 (middleMsgs (messagesAfterAppend st sid role content md))))
           :: takeLast 8 (messagesAfterAppend st sid role content md)) ∧
    (create_coding_system_prompt md ≠ create_coding_system_prompt md0 →
      create_coding_system_prompt md ++ "\n\n" ++
          buildSummary (takeLast 12
            (middleMsgs (messagesAfterAppend st sid role content md))) ≠
        create_coding_system_prompt md0 ++ "\n\n" ++
          buildSummary (takeLast 12
            (middleMsgs (messagesAfterAppend st sid role content md)))) := by
  constructor
  · rw [add_message_eq_of_healthy st sid role content md hw,
        postMessages_eq_of_long st sid role content md hlen]
  · intro hne heq
    exact hne (string_append_right_cancel (string_append_right_cancel heq))

theorem c6_metadata_refresh_witness :
    (demoStore.writeFailure = none ∧
     load_session demoStore "s1" =
       Message.mk "system"
         (create_coding_system_prompt (some demoOldMeta)) :: demoTailMsgs ∧
     some demoNewMeta ≠ some demoOldMeta ∧
     25 < (messagesAfterAppend demoStore "s1" "user" "turn 24"
       (some demoNewMeta)).length) ∧
    add_message demoStore "s1" "user" "turn 24" (some demoNewMeta) =
      Except.ok
        ({ files := storePut demoStore.files "s1"
             (Blob.parsed (postMessages demoStore "s1" "user" "turn 24"
               (some demoNewMeta))),
           dirExists := true, writeFailure := none },
         Message.mk "system"
             (create_coding_system_prompt (some demoNewMeta) ++ "\n\n" ++
               buildSummary (takeLast 12
                 (middleMsgs (messagesAfterAppend demoStore "s1" "user"
                   "turn 24" (some demoNewMeta)))))
           :: takeLast 8 (messagesAfterAppend demoStore "s1" "user" "turn 24"
               (some demoNewMeta))) ∧
    (create_coding_system_prompt (some demoNewMeta) ≠
        create_coding_system_prompt (some demoOldMeta) →
      create_coding_system_prompt (some demoNewMeta) ++ "\n\n" ++
          buildSummary (takeLast 12
            (middleMsgs (messagesAfterAppend demoStore "s1" "user" "turn 24"
              (some demoNewMeta)))) ≠
        create_coding_system_prompt (some demoOldMeta) ++ "\n\n" ++
          buildSummary (takeLast 12
            (middleMsgs (messagesAfterAppend demoStore "s1" "user" "turn 24"
              (some demoNewMeta))))) :=
  ⟨⟨rfl, rfl, by decide, by decide⟩,
   c6_metadata_refresh demoStore "s1" "user" "turn 24" (some demoNewMeta)
     (some demoOldMeta) demoTailMsgs rfl rfl (by decide) (by decide)⟩

/-! ### Evaluating one inference request branch by branch -/

/-- The store produced by a healthy save of `msgs` for `sid`. -/
def stAfterSave (st : Store) (sid : String) (msgs : List Message) : Store :=
  { files := storePut st.files sid (Blob.parsed msgs),
    dirExists := true, writeFailure := none }

theorem add_message_eq2 (st : Store) (sid role content : String)
    (md : Option Metadata) (hw : st.writeFailure = none) :
    add_message st sid role content md =
      Except.ok (stAfterSave st sid (postMessages st sid role content md),
        postMessages st sid role content md) :=
  add_message_eq_of_healthy st sid role content md hw

theorem load_stAfterSave (st : Store) (sid : String) (msgs : List Message) :
    load_session (stAfterSave st sid msgs) sid = msgs :=
  load_session_put _ _ _ _ _

theorem isEmpty_false_of_ne_nil {α} {l : List α} (h : l ≠ []) :
    l.isEmpty = false := by
  cases l with
  | nil => exact absurd rfl h
  | cons a t => rfl

theorem coding_llm_inference_no_model (env : InferenceEnv) (st : Store)
    (sid p : String) (md : Option Metadata) (choice : String)
    (hw : st.writeFailure = none)
    (hml : env.modelFiles (resolveModelDir choice) = []) :
    coding_llm_inference env st sid p md choice =
      Except.ok
        (stAfterSave st sid
           (postMessages st sid "user" (coding_prompt_wrapper md p) md),
         modelNotFoundResponse sid choice) := by
  simp [coding_llm_inference,
    add_message_eq2 st sid "user" (coding_prompt_wrapper md p) md hw, hml]

theorem coding_llm_inference_cpe (env : InferenceEnv) (st : Store)
    (sid p : String) (md : Option Metadata) (choice e : String)
    (hw : st.writeFailure = none)
    (hml : env.modelFiles (resolveModelDir choice) ≠ [])
    (heng : env.engine
        (buildTranscript
          (postMessages st sid "user" (coding_prompt_wrapper md p) md)) =
      EngineOutcome.calledProcessError e) :
    coding_llm_inference env st sid p md choice =
      Except.ok
        (stAfterSave st sid
           (postMessages st sid "user" (coding_prompt_wrapper md p) md),
         inferenceErrorResponse sid e choice) := by
  simp [coding_llm_inference,
    add_message_eq2 st sid "user" (coding_prompt_wrapper md p) md hw,
    isEmpty_false_of_ne_nil hml, heng]

theorem coding_llm_inference_timeout (env : InferenceEnv) (st : Store)
    (sid p : String) (md : Option Metadata) (choice e : String)
    (hw : st.writeFailure = none)
    (hml : env.modelFiles (resolveModelDir choice) ≠ [])
    (heng : env.engine
        (buildTranscript
          (postMessages st sid "user" (coding_prompt_wrapper md p) md)) =
      EngineOutcome.timeoutOrOther e) :
    coding_llm_inference env st sid p md choice =
      Except.ok
        (stAfterSave st sid
           (postMessages st sid "user" (coding_prompt_wrapper md p) md),
         unexpectedErrorResponse sid e) := by
  simp [coding_llm_inference,
    add_message_eq2 st sid "user" (coding_prompt_wrapper md p) md hw,
    isEmpty_false_of_ne_nil hml, heng]

theorem coding_llm_inference_success (env : InferenceEnv) (st : Store)
    (sid p : String) (md : Option Metadata) (choice stdout : String)
    (hw : st.writeFailure = none)
    (hml : env.modelFiles (resolveModelDir choice) ≠ [])
    (heng : env.engine
        (buildTranscript
          (postMessages st sid "user" (coding_prompt_wrapper md p) md)) =
      EngineOutcome.success stdout) :
    coding_llm_inference env st sid p md choice =
      Except.ok
        (stAfterSave
           (stAfterSave st sid
             (postMessages st sid "user" (coding_prompt_wrapper md p) md))
           sid
           (postMessages
             (stAfterSave st sid
               (postMessages st sid "user" (coding_prompt_wrapper md p) md))
             sid "assistant" (cleanResponse stdout) md),
         successResponse sid (cleanResponse stdout) choice md) := by
  simp [coding_llm_inference,
    add_message_eq2 st sid "user" (coding_prompt_wrapper md p) md hw,
    isEmpty_false_of_ne_nil hml, heng,
    add_message_eq2 (stAfterSave st sid
      (postMessages st sid "user" (coding_prompt_wrapper md p) md)) sid
      "assistant" (cleanResponse stdout) md rfl]

theorem coding_llm_inference_total (env : InferenceEnv) (st : Store)
    (sid p : String) (md : Option Metadata) (choice : String)
    (hw : st.writeFailure = none) :
    ∃ st2 r, coding_llm_inference env st sid p md choice =
      Except.ok (st2, r) := by
  by_cases hml : env.modelFiles (resolveModelDir choice) = []
  · exact ⟨_, _, coding_llm_inference_no_model env st sid p md choice hw hml⟩
  · cases heng : env.engine
        (buildTranscript
          (postMessages st sid "user" (coding_prompt_wrapper md p) md)) with
    | success s =>
      exact ⟨_, _,
        coding_llm_inference_success env st sid p md choice s hw hml heng⟩
    | calledProcessError e =>
      exact ⟨_, _,
        coding_llm_inference_cpe env st sid p md choice e hw hml heng⟩
    | timeoutOrOther e =>
      exact ⟨_, _,
        coding_llm_inference_timeout env st sid p md choice e hw hml heng⟩

/-- C3: whenever the engine call fails — non-zero exit status or any
other exception such as a timeout — after the user turn was committed,
the final store is exactly the store of the user-turn append (so the
user turn is still persisted and no assistant turn was appended), and
the returned response has its error field set together with a non-empty
fallback response text. -/
theorem c3_engine_failure_keeps_user_turn (env : InferenceEnv) (st : Store)
    (sid p : String) (md : Option Metadata) (choice : String)
    (hw : st.writeFailure = none)
    (hmodel : env.modelFiles (resolveModelDir choice) ≠ [])
    (hfail : ∀ t s, env.engine t ≠ EngineOutcome.success s) :
    ∃ r,
      coding_llm_inference env st sid p md choice =
        Except.ok
          (stAfterSave st sid
            (postMessages st sid "user" (coding_prompt_wrapper md p) md),
           r) ∧
      Message.mk "user" (coding_prompt_wrapper md p) ∈
        load_session
          (stAfterSave st sid
            (postMessages st sid "user" (coding_prompt_wrapper md p) md))
          sid ∧
      r.error.isSome = true ∧
      ∃ t, r.response = some t ∧ t ≠ "" := by
  have hmem : Message.mk "user" (coding_prompt_wrapper md p) ∈
      load_session
        (stAfterSave st sid
          (postMessages st sid "user" (coding_prompt_wrapper md p) md))
        sid := by
    rw [load_stAfterSave]
    exact mem_postMessages_self st sid "user" (coding_prompt_wrapper md p) md
  cases heng : env.engine
      (buildTranscript
        (postMessages st sid "user" (coding_prompt_wrapper md p) md)) with
  | success s => exact absurd heng (hfail _ s)
  | calledProcessError e =>
    exact ⟨inferenceErrorResponse sid e choice,
      coding_llm_inference_cpe env st sid p md choice e hw hmodel heng,
      hmem, rfl,
      "I encountered an error processing your coding request. Please try again with a simpler query.",
      rfl, by decide⟩
  | timeoutOrOther e =>
    exact ⟨unexpectedErrorResponse sid e,
      coding_llm_inference_timeout env st sid p md choice e hw hmodel heng,
      hmem, rfl, "An unexpected error occurred. Please try again.",
      rfl, by decide⟩

theorem c3_engine_failure_keeps_user_turn_witness :
    (emptyStore.writeFailure = none ∧
      demoFailEnv.modelFiles (resolveModelDir "phi-3.5-mini") ≠ [] ∧
      (∀ t s, demoFailEnv.engine t ≠ EngineOutcome.success s)) ∧
    ∃ r,
      coding_llm_inference demoFailEnv emptyStore "w3" "sum column A" none
          "phi-3.5-mini" =
        Except.ok
          (stAfterSave emptyStore "w3"
            (postMessages emptyStore "w3" "user"
              (coding_prompt_wrapper none "sum column A") none),
           r) ∧
      Message.mk "user" (coding_prompt_wrapper none "sum column A") ∈
        load_session
          (stAfterSave emptyStore "w3"
            (postMessages emptyStore "w3" "user"
              (coding_prompt_wrapper none "sum column A") none))
          "w3" ∧
      r.error.isSome = true ∧
      ∃ t, r.response = some t ∧ t ≠ "" :=
  ⟨⟨rfl, by decide, fun t s h => by simp [demoFailEnv] at h⟩,
   c3_engine_failure_keeps_user_turn demoFailEnv emptyStore "w3"
     "sum column A" none "phi-3.5-mini" rfl (by decide)
     (fun t s h => by simp [demoFailEnv] at h)⟩

/-- C4: an empty prompt makes the endpoint fail fast with the
validation-error dict and no side effect: the store comes back
unchanged (so any later load, in particular of this session id, sees
exactly what it saw before — an empty sequence for a fresh session),
and the result does not depend on the inference environment, i.e. no
inference call is consulted. -/
theorem c4_empty_prompt_no_side_effects (env env2 : InferenceEnv)
    (st : Store) (sidOpt : Option String) (u : String)
    (md : Option Metadata) (model : String) :
    coding_query_endpoint env st sidOpt u "" md model =
      Except.ok (st, validationErrorResponse) ∧
    coding_query_endpoint env st sidOpt u "" md model =
      coding_query_endpoint env2 st sidOpt u "" md model ∧
    (∀ st2 r, coding_query_endpoint env st sidOpt u "" md model =
        Except.ok (st2, r) →
      ∀ sid2, load_session st2 sid2 = load_session st sid2) := by
  refine ⟨rfl, rfl, ?_⟩
  intro st2 r h sid2
  have h2 := (show coding_query_endpoint env st sidOpt u "" md model =
    Except.ok (st, validationErrorResponse) from rfl).symm.trans h
  rw [Except.ok.injEq, Prod.mk.injEq] at h2
  rw [← h2.1]

theorem c4_empty_prompt_no_side_effects_witness :
    coding_query_endpoint demoFailEnv emptyStore (some "s2") "u" "" none
        "phi-3.5-mini" =
      Except.ok (emptyStore, validationErrorResponse) ∧
    coding_query_endpoint demoFailEnv emptyStore (some "s2") "u" "" none
        "phi-3.5-mini" =
      coding_query_endpoint demoOkEnv emptyStore (some "s2") "u" "" none
        "phi-3.5-mini" ∧
    (∀ st2 r, coding_query_endpoint demoFailEnv emptyStore (some "s2") "u" ""
        none "phi-3.5-mini" = Except.ok (st2, r) →
      ∀ sid2, load_session st2 sid2 = load_session emptyStore sid2) :=
  c4_empty_prompt_no_side_effects demoFailEnv demoOkEnv emptyStore
    (some "s2") "u" none "phi-3.5-mini"

/-- C5, counterexample: on the empty-prompt failure the endpoint
returns `{"error": "No prompt provided"}` — a failing response that
carries neither the session id nor any user-safe response text, so the
claim that every failing response contains the sessionId and a
non-empty responseText is false at this input. -/
theorem c5_counterexample :
    coding_query_endpoint demoFailEnv emptyStore none "u1" "" none
        "phi-3.5-mini" =
      Except.ok (emptyStore, validationErrorResponse) ∧
    validationErrorResponse.error = some "No prompt provided" ∧
    validationErrorResponse.session_id = none ∧
    validationErrorResponse.response = none :=
  ⟨rfl, rfl, rfl, rfl⟩

theorem modelNotFound_text_ne_empty (choice : String) :
    "Model " ++ choice ++
        " not found. Please run setup_coding_models first." ≠ "" := by
  intro h
  have hd := congrArg String.data h
  rw [String.data_append, String.data_append] at hd
  rcases List.append_eq_nil.mp hd with ⟨h1, -⟩
  rcases List.append_eq_nil.mp h1 with ⟨h2, -⟩
  exact absurd h2 (by decide)

/-- C5, amended: for every failing request other than the empty-prompt
validation failure — model unavailable, inference failure, or
unexpected error — the response carries the resolved session id and a
non-empty user-safe response text alongside the separate diagnostic
error field; the empty-prompt validation failure instead carries only
the diagnostic error, with no session id and no response text. -/
theorem c5_amended_failure_shape (env : InferenceEnv) (st : Store)
    (sidOpt : Option String) (u p : String) (md : Option Metadata)
    (model : String) (st2 : Store) (r : ApiResponse) (e : String)
    (hp : p ≠ "") (hw : st.writeFailure = none)
    (hres : coding_query_endpoint env st sidOpt u p md model =
      Except.ok (st2, r))
    (herr : r.error = some e) :
    r.session_id = some (resolveSid sidOpt u) ∧
    ∃ t, r.response = some t ∧ t ≠ "" := by
  have hpb : (p == "") = false := by simpa using hp
  rw [show coding_query_endpoint env st sidOpt u p md model =
      coding_llm_inference env st (resolveSid sidOpt u) p
        (some (metaOrEmpty md)) model by
    simp [coding_query_endpoint, hpb]] at hres
  by_cases hml : env.modelFiles (resolveModelDir model) = []
  · rw [coding_llm_inference_no_model env st (resolveSid sidOpt u) p
      (some (metaOrEmpty md)) model hw hml] at hres
    rw [Except.ok.injEq, Prod.mk.injEq] at hres
    rw [← hres.2]
    exact ⟨rfl, _, rfl, modelNotFound_text_ne_empty model⟩
  · cases heng : env.engine
        (buildTranscript
          (postMessages st (resolveSid sidOpt u) "user"
            (coding_prompt_wrapper (some (metaOrEmpty md)) p)
            (some (metaOrEmpty md)))) with
    | success s =>
      rw [coding_llm_inference_success env st (resolveSid sidOpt u) p
        (some (metaOrEmpty md)) model s hw hml heng] at hres
      rw [Except.ok.injEq, Prod.mk.injEq] at hres
      rw [← hres.2] at herr
      exact Option.noConfusion herr
    | calledProcessError e2 =>
      rw [coding_llm_inference_cpe env st (resolveSid sidOpt u) p
        (some (metaOrEmpty md)) model e2 hw hml heng] at hres
      rw [Except.ok.injEq, Prod.mk.injEq] at hres
      rw [← hres.2]
      exact ⟨rfl, _, rfl, by decide⟩
    | timeoutOrOther e2 =>
      rw [coding_llm_inference_timeout env st (resolveSid sidOpt u) p
        (some (metaOrEmpty md)) model e2 hw hml heng] at hres
      rw [Except.ok.injEq, Prod.mk.injEq] at hres
      rw [← hres.2]
      exact ⟨rfl, _, rfl, by decide⟩

theorem c5_amended_failure_shape_witness :
    (inferenceErrorResponse "w5" "exit status 1" "phi-3.5-mini").session_id =
      some (resolveSid (some "w5") "u") ∧
    ∃ t, (inferenceErrorResponse "w5" "exit status 1"
        "phi-3.5-mini").response = some t ∧ t ≠ "" :=
  c5_amended_failure_shape demoFailEnv emptyStore (some "w5") "u"
    "sum column A" none "phi-3.5-mini"
    (stAfterSave emptyStore "w5"
      (postMessages emptyStore "w5" "user"
        (coding_prompt_wrapper (some []) "sum column A") (some [])))
    (inferenceErrorResponse "w5" "exit status 1" "phi-3.5-mini")
    "exit status 1" (by decide) rfl
    (coding_llm_inference_cpe demoFailEnv emptyStore "w5" "sum column A"
      (some []) "phi-3.5-mini" "exit status 1" rfl (by decide) rfl)
    rfl

theorem unexpected_text_ne_model_text (choice : String) :
    ("An unexpected error occurred. Please try again." : String) ≠
      "Model " ++ choice ++
        " not found. Please run setup_coding_models first." := by
  intro h
  have h1 : ("An unexpected error occurred. Please try again." :
      String).data.head? = some 'A' := rfl
  have h2 : ("Model " ++ choice ++
      " not found. Please run setup_coding_models first.").data.head? =
      some 'M' := by
    rw [String.data_append, String.data_append]
    rfl
  have hh : some 'A' = some 'M' := by
    rw [← h1, ← h2, h]
  exact absurd hh (by decide)

/-- C9: a `model_choice` that is none of the three known model keys is
not rejected: the directory silently resolves to the phi-3.5-mini
fallback, the model-not-available error is returned when that directory
holds no model file, and when it does hold files the result is never
the model-not-found response. -/
theorem c9_unknown_model_fallback (env : InferenceEnv) (st : Store)
    (sid p : String) (md : Option Metadata) (choice : String)
    (hw : st.writeFailure = none)
    (h1 : choice ≠ "qwen-2.5-coder-14b")
    (h2 : choice ≠ "deepseek-coder-v2")
    (h3 : choice ≠ "phi-3.5-mini") :
    resolveModelDir choice = "phi-3.5-mini" ∧
    (env.modelFiles "phi-3.5-mini" = [] →
      coding_llm_inference env st sid p md choice =
        Except.ok
          (stAfterSave st sid
            (postMessages st sid "user" (coding_prompt_wrapper md p) md),
           modelNotFoundResponse sid choice)) ∧
    (env.modelFiles "phi-3.5-mini" ≠ [] →
      ∀ st2 r, coding_llm_inference env st sid p md choice =
          Except.ok (st2, r) →
        r ≠ modelNotFoundResponse sid choice) := by
  have b1 : (choice == "qwen-2.5-coder-14b") = false :=
    beq_eq_false_iff_ne.mpr h1
  have b2 : (choice == "deepseek-coder-v2") = false :=
    beq_eq_false_iff_ne.mpr h2
  have b3 : (choice == "phi-3.5-mini") = false :=
    beq_eq_false_iff_ne.mpr h3
  have hdir : resolveModelDir choice = "phi-3.5-mini" := by
    simp [resolveModelDir, model_paths, List.lookup, b1, b2, b3]
  refine ⟨hdir, ?_, ?_⟩
  · intro hml
    exact coding_llm_inference_no_model env st sid p md choice hw
      (by rw [hdir]; exact hml)
  · intro hml st2 r hres
    have hml2 : env.modelFiles (resolveModelDir choice) ≠ [] := by
      rw [hdir]; exact hml
    cases heng : env.engine
        (buildTranscript
          (postMessages st sid "user" (coding_prompt_wrapper md p) md)) with
    | success s =>
      rw [coding_llm_inference_success env st sid p md choice s hw hml2
        heng] at hres
      rw [Except.ok.injEq, Prod.mk.injEq] at hres
      rw [← hres.2]
      simp [successResponse, modelNotFoundResponse]
    | calledProcessError e =>
      rw [coding_llm_inference_cpe env st sid p md choice e hw hml2
        heng] at hres
      rw [Except.ok.injEq, Prod.mk.injEq] at hres
      rw [← hres.2]
      simp [inferenceErrorResponse, modelNotFoundResponse]
    | timeoutOrOther e =>
      rw [coding_llm_inference_timeout env st sid p md choice e hw hml2
        heng] at hres
      rw [Except.ok.injEq, Prod.mk.injEq] at hres
      rw [← hres.2]
      intro hcontra
      have hresp : (unexpectedErrorResponse sid e).response =
          (modelNotFoundResponse sid choice).response := by rw [hcontra]
      simp only [unexpectedErrorResponse, modelNotFoundResponse,
        Option.some.injEq] at hresp
      exact unexpected_text_ne_model_text choice hresp

theorem c9_unknown_model_fallback_witness :
    resolveModelDir "gpt-4" = "phi-3.5-mini" ∧
    (demoNoModelEnv.modelFiles "phi-3.5-mini" = [] →
      coding_llm_inference demoNoModelEnv emptyStore "w9" "sum column A"
          none "gpt-4" =
        Except.ok
          (stAfterSave emptyStore "w9"
            (postMessages emptyStore "w9" "user"
              (coding_prompt_wrapper none "sum column A") none),
           modelNotFoundResponse "w9" "gpt-4")) ∧
    (demoNoModelEnv.modelFiles "phi-3.5-mini" ≠ [] →
      ∀ st2 r, coding_llm_inference demoNoModelEnv emptyStore "w9"
          "sum column A" none "gpt-4" = Except.ok (st2, r) →
        r ≠ modelNotFoundResponse "w9" "gpt-4") :=
  c9_unknown_model_fallback demoNoModelEnv emptyStore "w9" "sum column A"
    none "gpt-4" rfl (by decide) (by decide) (by decide)

theorem penult_mem_postMessages (st : Store) (sid role content : String)
    (md : Option Metadata) (x : Message) (l : List Message)
    (hload : load_session st sid = l ++ [x]) :
    x ∈ postMessages st sid role content md := by
  have hinit : initMessages st sid md = l ++ [x] := by
    unfold initMessages
    rw [hload]
    rw [if_neg (by simp)]
  have hpre : messagesAfterAppend st sid role content md =
      l ++ ([x] ++ [Message.mk role content]) := by
    unfold messagesAfterAppend
    rw [hinit, List.append_assoc]
  by_cases hlong : 25 < (messagesAfterAppend st sid role content md).length
  · rw [postMessages_eq_of_long st sid role content md hlong]
    apply List.mem_cons_of_mem
    rw [hpre]
    exact mem_takeLast_of_mem_suffix l 8 (by simp) (by simp)
  · rw [postMessages_eq_of_short st sid role content md hlong, hpre]
    simp

theorem user_turn_mem_final (env : InferenceEnv) (st : Store)
    (sid p : String) (md : Option Metadata) (choice : String)
    (hw : st.writeFailure = none) :
    ∀ st2 r, coding_llm_inference env st sid p md choice =
        Except.ok (st2, r) →
      Message.mk "user" (coding_prompt_wrapper md p) ∈
        load_session st2 sid := by
  intro st2 r hres
  have hmem1 : Message.mk "user" (coding_prompt_wrapper md p) ∈
      load_session
        (stAfterSave st sid
          (postMessages st sid "user" (coding_prompt_wrapper md p) md))
        sid := by
    rw [load_stAfterSave]
    exact mem_postMessages_self st sid "user" (coding_prompt_wrapper md p) md
  by_cases hml : env.modelFiles (resolveModelDir choice) = []
  · rw [coding_llm_inference_no_model env st sid p md choice hw hml] at hres
    rw [Except.ok.injEq, Prod.mk.injEq] at hres
    rw [← hres.1]
    exact hmem1
  · cases heng : env.engine
        (buildTranscript
          (postMessages st sid "user" (coding_prompt_wrapper md p) md)) with
    | calledProcessError e =>
      rw [coding_llm_inference_cpe env st sid p md choice e hw hml heng]
        at hres
      rw [Except.ok.injEq, Prod.mk.injEq] at hres
      rw [← hres.1]
      exact hmem1
    | timeoutOrOther e =>
      rw [coding_llm_inference_timeout env st sid p md choice e hw hml heng]
        at hres
      rw [Except.ok.injEq, Prod.mk.injEq] at hres
      rw [← hres.1]
      exact hmem1
    | success s =>
      rw [coding_llm_inference_success env st sid p md choice s hw hml heng]
        at hres
      rw [Except.ok.injEq, Prod.mk.injEq] at hres
      rw [← hres.1, load_stAfterSave]
      obtain ⟨l, hl⟩ := postMessages_ends st sid "user"
        (coding_prompt_wrapper md p) md
      exact penult_mem_postMessages _ sid "assistant" (cleanResponse s) md
        _ l (by rw [load_stAfterSave]; exact hl)

set_option maxRecDepth 4000 in
theorem wrapper_ne_prompt (md : Option Metadata) (p : String) :
    coding_prompt_wrapper md p ≠ p := by
  intro h
  have hd := congrArg (fun s => s.data.length) h
  simp only [coding_prompt_wrapper, spreadsheetContextLine, requestSuffix,
    String.data_append, List.length_append, List.length_cons,
    List.length_nil] at hd
  omega

theorem spreadsheetContextLine_ends_label (md : Option Metadata) :
    spreadsheetContextLine md =
      ("\nSpreadsheet Context: " ++
        (if metaTruthy md then jsonDumps (metaOrEmpty md)
         else "No spreadsheet loaded") ++ "\n\n") ++ "User Request: " := by
  unfold spreadsheetContextLine
  rw [String.append_assoc, String.append_assoc, String.append_assoc]
  rfl

/-- C10: a caller-facing request with a non-empty prompt never stores
the raw prompt as the user turn: the stored user turn's content is the
fixed wrapper — the spreadsheet-context block (the JSON dump of the
metadata, or the `No spreadsheet loaded` marker when it is absent or
empty) followed by the prompt after the `User Request: ` label and a
fixed instruction suffix — so the raw prompt appears only as a proper
substring of that wrapper. -/
theorem c10_user_turn_is_wrapped (env : InferenceEnv) (st : Store)
    (sidOpt : Option String) (u p : String) (md : Option Metadata)
    (model : String) (hp : p ≠ "") (hw : st.writeFailure = none) :
    ∃ st2 r,
      coding_query_endpoint env st sidOpt u p md model =
        Except.ok (st2, r) ∧
      Message.mk "user" (coding_prompt_wrapper (some (metaOrEmpty md)) p) ∈
        load_session st2 (resolveSid sidOpt u) ∧
      coding_prompt_wrapper (some (metaOrEmpty md)) p ≠ p ∧
      coding_prompt_wrapper (some (metaOrEmpty md)) p =
        (("\nSpreadsheet Context: " ++
            (if metaTruthy (some (metaOrEmpty md)) then
              jsonDumps (metaOrEmpty md)
             else "No spreadsheet loaded") ++ "\n\n") ++ "User Request: ") ++
          p ++ requestSuffix ∧
      (metaTruthy (some (metaOrEmpty md)) = false →
        spreadsheetContextLine (some (metaOrEmpty md)) =
          "\nSpreadsheet Context: No spreadsheet loaded\n\nUser Request: ") := by
  have hpb : (p == "") = false := by simpa using hp
  obtain ⟨st2, r, hres⟩ := coding_llm_inference_total env st
    (resolveSid sidOpt u) p (some (metaOrEmpty md)) model hw
  refine ⟨st2, r, ?_, ?_, wrapper_ne_prompt _ p, ?_, ?_⟩
  · rw [show coding_query_endpoint env st sidOpt u p md model =
      coding_llm_inference env st (resolveSid sidOpt u) p
        (some (metaOrEmpty md)) model by simp [coding_query_endpoint, hpb]]
    exact hres
  · exact user_turn_mem_final env st (resolveSid sidOpt u) p
      (some (metaOrEmpty md)) model hw st2 r hres
  · unfold coding_prompt_wrapper
    rw [spreadsheetContextLine_ends_label]
    rfl
  · intro hfalse
    unfold spreadsheetContextLine
    rw [hfalse]
    rfl

theorem c10_user_turn_is_wrapped_witness :
    ("sum column A" ≠ "" ∧ emptyStore.writeFailure = none) ∧
    ∃ st2 r,
      coding_query_endpoint demoOkEnv emptyStore none "u10" "sum column A"
          none "phi-3.5-mini" =
        Except.ok (st2, r) ∧
      Message.mk "user"
          (coding_prompt_wrapper (some (metaOrEmpty none)) "sum column A") ∈
        load_session st2 (resolveSid none "u10") ∧
      coding_prompt_wrapper (some (metaOrEmpty none)) "sum column A" ≠
        "sum column A" ∧
      coding_prompt_wrapper (some (metaOrEmpty none)) "sum column A" =
        (("\nSpreadsheet Context: " ++
            (if metaTruthy (some (metaOrEmpty none)) then
              jsonDumps (metaOrEmpty none)
             else "No spreadsheet loaded") ++ "\n\n") ++ "User Request: ") ++
          "sum column A" ++ requestSuffix ∧
      (metaTruthy (some (metaOrEmpty none)) = false →
        spreadsheetContextLine (some (metaOrEmpty none)) =
          "\nSpreadsheet Context: No spreadsheet loaded\n\nUser Request: ") :=
  ⟨⟨by decide, rfl⟩,
   c10_user_turn_is_wrapped demoOkEnv emptyStore none "u10" "sum column A"
     none "phi-3.5-mini" (by decide) rfl⟩
